import Mathlib

/-!
Shallow embedding of the run-orchestrator core of `src/my_agent/JSF2NG.py`:
string classification helpers, the retrying executor `observe_run`, the
`SessionManager` control surface, the `MemoryBank` store, payload compaction
`compact_context`, and the aggregation pass of `run_mod5_safe`.

Python strings are modelled as `String`, manipulated through their character
lists so that all operations reduce in the kernel.  Delays are exact rationals
(`ℚ`); the float schedules in the source (`30 * 1.5 ** k`, `5 * 2 ** k`) are
dyadic rationals represented exactly at the small exponents involved, so `ℚ`
is a faithful model.  Side effects (log writes, sleeps, semaphore operations,
work-stage invocations) are recorded as explicit traces of `Action`s.
-/

namespace JSF2NG

/-! ### String primitives (Python `str` operations used by the source) -/

/-- Python `s.lower()` (ASCII case folding suffices for the signature texts). -/
def pyLower (s : String) : String := ⟨s.data.map Char.toLower⟩

/-- Python `s[:n]` (character slicing). -/
def pyTake (s : String) (n : Nat) : String := ⟨s.data.take n⟩

/-- Python `len(s)`. -/
def pyLen (s : String) : Nat := s.data.length

/-- Python `needle in hay` on character lists: some tail of `hay` starts with
`needle`. -/
def charsContain (need : List Char) : List Char → Bool
  | [] => need.isPrefixOf []
  | c :: t => need.isPrefixOf (c :: t) || charsContain need t

/-- Python `needle in hay` for strings. -/
def strContains (hay need : String) : Bool := charsContain need.data hay.data

/-- Python `s.endswith(suffix)`. -/
def strEndsWith (s suffix : String) : Bool := suffix.data.isSuffixOf s.data

/-! ### Failure classification (`observe_run`, lines 289-300) -/

/-- `"resource_exhausted" in low or "quota" in low or "429" in low or
"rate-limit" in low` where `low = msg.lower()`. -/
def isQuotaMsg (msg : String) : Bool :=
  strContains (pyLower msg) "resource_exhausted" || strContains (pyLower msg) "quota" ||
    strContains (pyLower msg) "429" || strContains (pyLower msg) "rate-limit"

/-- `"unavailable" in low or "timeout" in low or "internal" in low`. -/
def isTransientMsg (msg : String) : Bool :=
  strContains (pyLower msg) "unavailable" || strContains (pyLower msg) "timeout" ||
    strContains (pyLower msg) "internal"

/-! ### Retry configuration (module constants `MAX_RETRIES`,
`BASE_RETRY_DELAY`, `QUOTA_BACKOFF_INITIAL`, env-configurable) -/

structure RetryConfig where
  max_retries : Nat
  base_delay : ℚ
  quota_initial : ℚ
deriving DecidableEq

/-- Source defaults: `MAX_RETRIES=4`, `BASE_RETRY_DELAY=5.0`,
`QUOTA_BACKOFF_INITIAL=30.0`. -/
def defaultConfig : RetryConfig := ⟨4, 5, 30⟩

/-- `QUOTA_BACKOFF_INITIAL * (1.5 ** (attempt - 1))` (line 292). -/
def quotaWait (cfg : RetryConfig) (attempt : Nat) : ℚ :=
  cfg.quota_initial * (3 / 2) ^ (attempt - 1)

/-- `BASE_RETRY_DELAY * (2 ** (attempt - 1))` (line 298). -/
def transientWait (cfg : RetryConfig) (attempt : Nat) : ℚ :=
  cfg.base_delay * 2 ^ (attempt - 1)

/-! ### Observable actions of one `observe_run` invocation -/

inductive Event where
  | cancelled (attempt : Nat)
  | start_attempt (attempt : Nat)
  | success (attempt : Nat)
  | error (attempt : Nat) (msg : String)
  | quota_backoff (attempt : Nat) (wait : ℚ)
  | non_retriable (msg : String)
  | max_retries_exceeded (lastError : String)
  | finished_observe_run (attempts : Nat)
deriving DecidableEq

inductive Action where
  | acquire
  | release
  | log (e : Event)
  | sleep (wait : ℚ)
  | invoke
  | metricIncr (key : String)
deriving DecidableEq

/-- Outcome of one `runner.run_debug` call: a result, or a raised exception
with message `str(e)`. -/
inductive AttemptOutcome where
  | ok (result : String)
  | raised (msg : String)
deriving DecidableEq

/-- Value returned by `observe_run`: the runner result, or the
`{"error": msg}` dictionary. -/
inductive RunResult where
  | success (r : String)
  | failure (msg : String)
deriving DecidableEq

/-- Python `str` of a `RunResult` as the aggregation pass sees it
(`str({"error": msg})` renders with single quotes). -/
def pyStr : RunResult → String
  | RunResult.success r => r
  | RunResult.failure msg => "\x7b\x27error\x27: \x27" ++ msg ++ "\x27\x7d"

def lastErrStr : Option String → String
  | none => "None"
  | some m => m

/-- The `while attempt < MAX_RETRIES` loop of `observe_run` (lines 259-306).
`attempt` is the counter value on entry, `fuel = MAX_RETRIES - attempt` the
remaining iterations, `behav a` the outcome of the work-stage call on attempt
`a`, `cancelAt a` the value of `SESSION_MANAGER.is_cancelled` at the check
before attempt `a` (the pause-gate wait itself is a suspension, not an
action).  Returns the action trace, the returned value, and the final value
of `attempt` (as logged by the `finally` block). -/
def observe_loop (cfg : RetryConfig) (cancelAt : Nat → Bool)
    (behav : Nat → AttemptOutcome) (attempt : Nat) (fuel : Nat)
    (lastErr : Option String) : List Action × RunResult × Nat :=
  match fuel with
  | 0 =>
      ([Action.log (Event.max_retries_exceeded (lastErrStr lastErr))],
       RunResult.failure ("Max retries exceeded: " ++ lastErrStr lastErr), attempt)
  | fuel' + 1 =>
      let a := attempt + 1
      if cancelAt a then
        ([Action.log (Event.cancelled a)], RunResult.failure ("CANCELLED"), a)
      else
        match behav a with
        | AttemptOutcome.ok r =>
            ([Action.log (Event.start_attempt a), Action.invoke,
              Action.log (Event.success a), Action.metricIncr ("successful_runs")],
             RunResult.success r, a)
        | AttemptOutcome.raised msg =>
            if isQuotaMsg msg then
              let rest := observe_loop cfg cancelAt behav a fuel' (some msg)
              (Action.log (Event.start_attempt a) :: Action.invoke ::
                 Action.log (Event.error a msg) ::
                 Action.log (Event.quota_backoff a (quotaWait cfg a)) ::
                 Action.sleep (quotaWait cfg a) :: rest.1, rest.2)
            else if isTransientMsg msg then
              let rest := observe_loop cfg cancelAt behav a fuel' (some msg)
              (Action.log (Event.start_attempt a) :: Action.invoke ::
                 Action.log (Event.error a msg) ::
                 Action.sleep (transientWait cfg a) :: rest.1, rest.2)
            else
              ([Action.log (Event.start_attempt a), Action.invoke,
                Action.log (Event.error a msg), Action.log (Event.non_retriable msg)],
               RunResult.failure msg, a)

/-- The `try ... finally` shape of `observe_run` (lines 252-312): acquire the
semaphore (if given) before the body, and on every exit release it and log
`finished_observe_run` with the attempts taken. -/
def withFinally (hasSem : Bool) (body : List Action × RunResult × Nat) :
    List Action × RunResult :=
  ((if hasSem then [Action.acquire] else []) ++ body.1 ++
     (if hasSem then [Action.release] else []) ++
     [Action.log (Event.finished_observe_run body.2.2)],
   body.2.1)

/-- One full `observe_run` invocation. -/
def observe_run (cfg : RetryConfig) (hasSem : Bool) (cancelAt : Nat → Bool)
    (behav : Nat → AttemptOutcome) : List Action × RunResult :=
  withFinally hasSem (observe_loop cfg cancelAt behav 0 cfg.max_retries none)

def isTerminalAct : Action → Bool
  | Action.log (Event.success _) => true
  | Action.log (Event.cancelled _) => true
  | Action.log (Event.non_retriable _) => true
  | Action.log (Event.max_retries_exceeded _) => true
  | _ => false

def isAcquire : Action → Bool
  | Action.acquire => true
  | _ => false

def isRelease : Action → Bool
  | Action.release => true
  | _ => false

def isSemAct (a : Action) : Bool := isAcquire a || isRelease a

def isInvoke : Action → Bool
  | Action.invoke => true
  | _ => false

/-- `x` immediately followed by `y` somewhere in `l`. -/
def Adjacent (x y : α) (l : List α) : Prop := ∃ p q, l = p ++ x :: y :: q

/-! ### SessionManager (lines 119-160) -/

/-- One session entry: `{"paused": ..., "pause_event": ev, "cancel": ...}`.
`pause_event = true` models the `asyncio.Event` being set (gate open), so a
task awaiting it is not blocked. -/
structure SessionState where
  paused : Bool
  pause_event : Bool
  cancel : Bool
deriving DecidableEq

/-- `SessionManager.sessions`, a string-keyed dictionary. -/
abbrev SessionMap := List (String × SessionState)

def alistLookup {α : Type} : List (String × α) → String → Option α
  | [], _ => none
  | kv :: t, key => if kv.1 = key then some kv.2 else alistLookup t key

/-- `create_session`: idempotent; a fresh session is
`paused=False, pause_event set, cancel=False`. -/
def create_session (m : SessionMap) (sid : String) : SessionMap :=
  match alistLookup m sid with
  | some _ => m
  | none => (sid, ⟨false, true, false⟩) :: m

def setSession (m : SessionMap) (sid : String)
    (f : SessionState → SessionState) : SessionMap :=
  m.map fun kv => if kv.1 = sid then (kv.1, f kv.2) else kv

/-- `pause`: `paused=True`, `pause_event.clear()`; no-op on unknown id. -/
def pauseSession (m : SessionMap) (sid : String) : SessionMap :=
  setSession m sid fun s => { s with paused := true, pause_event := false }

/-- `resume`: `paused=False`, `pause_event.set()`; no-op on unknown id. -/
def resumeSession (m : SessionMap) (sid : String) : SessionMap :=
  setSession m sid fun s => { s with paused := false, pause_event := true }

/-- `cancel`: `cancel=True` and `pause_event.set()`; no-op on unknown id. -/
def cancelSession (m : SessionMap) (sid : String) : SessionMap :=
  setSession m sid fun s => { s with cancel := true, pause_event := true }

/-- `is_cancelled`: pure read, `False` on unknown id. -/
def is_cancelled (m : SessionMap) (sid : String) : Bool :=
  match alistLookup m sid with
  | some s => s.cancel
  | none => false

/-! ### MemoryBank (lines 76-114)

The on-disk JSON snapshot is modelled as `Option` of the stored mapping
(`none` = file absent or corrupt, both of which `load` treats as empty). -/

structure BankState (α : Type) where
  store : List (String × α)
  disk : Option (List (String × α))

/-- `MemoryBank.__init__`: empty in-memory store over a given disk state. -/
def bank_fresh {α : Type} (disk : Option (List (String × α))) : BankState α :=
  ⟨[], disk⟩

/-- `load`: read the snapshot if present, else reset to `{}`. -/
def bank_load {α : Type} (b : BankState α) : BankState α :=
  { b with store := b.disk.getD [] }

/-- `save`: overwrite the snapshot with the in-memory store. -/
def bank_save {α : Type} (b : BankState α) : BankState α :=
  { b with disk := some b.store }

/-- `clear`: reset the store and remove the snapshot file (tolerating
absence). -/
def bank_clear {α : Type} (_ : BankState α) : BankState α :=
  ⟨[], none⟩

/-- `get(key, default)`. -/
def bank_get {α : Type} (b : BankState α) (key : String) (dflt : α) : α :=
  (alistLookup b.store key).getD dflt

/-! ### Payload compaction `compact_context` (lines 213-231) -/

/-- The JSON-like payload values `compact_context` traverses.  `intV`,
`boolV`, `noneV` stand for the non-`str`/`dict`/`list` Python values that are
returned unchanged. -/
inductive PyVal where
  | str (s : String)
  | intV (n : Int)
  | boolV (b : Bool)
  | noneV
  | list (xs : List PyVal)
  | dict (kvs : List (String × PyVal))

def truncMarker : String := "...[truncated]"

def itemsMarker : String := "...[truncated items]"

/-- The string case: `obj if len(obj) <= max_chars else
obj[:max_chars] + "...[truncated]"`. -/
def compactStr (s : String) (max_chars : Nat) : PyVal :=
  if pyLen s ≤ max_chars then PyVal.str s
  else PyVal.str (pyTake s max_chars ++ truncMarker)

mutual

/-- `compact_context(obj, max_chars)`.  In the source the over-long-list case
first truncates to `obj[:50] + ["...[truncated items]"]` and then compacts
each element; since compaction is element-wise, this equals compacting first
and then taking 50 plus the compacted marker, which is how the recursion is
phrased here (the source's form is recovered in `compactList_take_comm`). -/
def compact_context : PyVal → Nat → PyVal
  | PyVal.str s, max_chars => compactStr s max_chars
  | PyVal.intV n, _ => PyVal.intV n
  | PyVal.boolV b, _ => PyVal.boolV b
  | PyVal.noneV, _ => PyVal.noneV
  | PyVal.dict kvs, max_chars => PyVal.dict (compactFields kvs max_chars)
  | PyVal.list xs, max_chars =>
      if 50 < xs.length then
        PyVal.list ((compactList xs max_chars).take 50 ++
          [compactStr itemsMarker max_chars])
      else
        PyVal.list (compactList xs max_chars)

/-- Element-wise compaction of a list payload (same budget). -/
def compactList : List PyVal → Nat → List PyVal
  | [], _ => []
  | x :: xs, max_chars => compact_context x max_chars :: compactList xs max_chars

/-- Field-wise compaction of a dict payload: keys kept, values compacted with
`max_chars // 4` when the lowercased key ends with `"content"`. -/
def compactFields : List (String × PyVal) → Nat → List (String × PyVal)
  | [], _ => []
  | kv :: rest, max_chars =>
      (kv.1, compact_context kv.2
        (if strEndsWith (pyLower kv.1) "content" then max_chars / 4 else max_chars)) ::
        compactFields rest max_chars

end

/-! ### Aggregation pass of `run_mod5_safe` (lines 494-542) -/

structure EvalRecord where
  score : ℚ
  issues : List String
  summary : String
deriving DecidableEq

inductive AggAction where
  | evaluation_backoff (retry : Nat) (wait : ℚ)
  | evaluation_model_overloaded (retry : Nat) (wait : ℚ)
  | sleepA (wait : ℚ)
deriving DecidableEq

/-- `"resource_exhausted" in summary or "quota" in summary or
"429" in summary` (line 505). -/
def aggQuota (summary : String) : Bool :=
  strContains summary ("resource_exhausted") || strContains summary ("quota") ||
    strContains summary ("429")

/-- `"unavailable" in summary or "503" in summary` (line 517). -/
def aggOverloaded (summary : String) : Bool :=
  strContains summary ("unavailable") || strContains summary ("503")

def deferredIssue : String := "Evaluation deferred due to quota exhaustion"

/-- The per-page `while retry < max_eval_retries` loop (lines 500-534), over
the stringified result `result = str(<recorded result>)`.  `wait` is the
shared backoff variable (initially 30); the quota branch doubles it, the
overloaded branch multiplies it by 1.5.  Returns the action trace and the
evaluation recorded by the loop, if any. -/
def eval_loop (result : String) (retry fuel : Nat) (wait : ℚ) :
    List AggAction × Option EvalRecord :=
  match fuel with
  | 0 => ([], none)
  | f + 1 =>
      let r := retry + 1
      let summary := pyLower (pyTake result 2000)
      if aggQuota summary then
        let rest := eval_loop result r f (wait * 2)
        (AggAction.evaluation_backoff r wait :: AggAction.sleepA wait :: rest.1,
         rest.2)
      else if aggOverloaded summary then
        let rest := eval_loop result r f (wait * (3 / 2))
        (AggAction.evaluation_model_overloaded r wait :: AggAction.sleepA wait ::
           rest.1, rest.2)
      else
        ([], some ⟨9, [], pyTake result 1000⟩)

/-- One page's aggregation (loop plus the `if page not in evaluations`
degraded fallback, lines 537-542): `max_eval_retries = 5`, `wait = 30`. -/
def eval_page (result : String) : List AggAction × EvalRecord :=
  let out := eval_loop result 0 5 30
  (out.1,
   match out.2 with
   | some r0 => r0
   | none => ⟨5, [deferredIssue], pyTake result 1000⟩)

/-- The whole aggregation pass: one evaluation per recorded result
(`for page, result in migration_results.items()`). -/
def aggregate (results : List (String × String)) : List (String × EvalRecord) :=
  results.map fun pr => (pr.1, (eval_page pr.2).2)

def aggSleeps (acts : List AggAction) : List ℚ :=
  acts.filterMap fun a =>
    match a with
    | AggAction.sleepA w => some w
    | _ => none

/-! ## Helper lemmas -/

theorem Adjacent.prepend {α : Type} {x y : α} {l : List α} (p0 : List α)
    (h : Adjacent x y l) : Adjacent x y (p0 ++ l) := by
  obtain ⟨p, q, rfl⟩ := h
  exact ⟨p0 ++ p, q, by simp⟩

theorem Adjacent.cons {α : Type} {x y : α} {l : List α} (z : α)
    (h : Adjacent x y l) : Adjacent x y (z :: l) :=
  h.prepend [z]

theorem Adjacent.here {α : Type} (x y : α) (l : List α) :
    Adjacent x y (x :: y :: l) :=
  ⟨[], l, rfl⟩

/-- The loop body emits exactly one terminal event
(success / cancelled / non_retriable / max_retries_exceeded). -/
theorem observe_loop_terminal_count (cfg : RetryConfig) (cancelAt : Nat → Bool)
    (behav : Nat → AttemptOutcome) :
    ∀ (fuel attempt : Nat) (lastErr : Option String),
      (observe_loop cfg cancelAt behav attempt fuel lastErr).1.countP isTerminalAct = 1 := by
  intro fuel
  induction fuel with
  | zero =>
      intro attempt lastErr
      simp [observe_loop, isTerminalAct]
  | succ f ih =>
      intro attempt lastErr
      simp only [observe_loop]
      cases hc : cancelAt (attempt + 1)
      · cases hb : behav (attempt + 1) with
        | ok r => simp [isTerminalAct]
        | raised msg =>
            by_cases hq : isQuotaMsg msg = true
            · simp [hq, List.countP_cons, isTerminalAct, ih]
            · by_cases ht : isTransientMsg msg = true
              · simp [hq, ht, List.countP_cons, isTerminalAct, ih]
              · simp [hq, ht, isTerminalAct]
      · simp [isTerminalAct]

/-- The loop body contains no semaphore actions. -/
theorem observe_loop_no_sem (cfg : RetryConfig) (cancelAt : Nat → Bool)
    (behav : Nat → AttemptOutcome) :
    ∀ (fuel attempt : Nat) (lastErr : Option String) (x : Action),
      x ∈ (observe_loop cfg cancelAt behav attempt fuel lastErr).1 →
      isSemAct x = false := by
  intro fuel
  induction fuel with
  | zero =>
      intro attempt lastErr x hx
      simp [observe_loop] at hx
      simp [hx, isSemAct, isAcquire, isRelease]
  | succ f ih =>
      intro attempt lastErr x hx
      simp only [observe_loop] at hx
      cases hc : cancelAt (attempt + 1) <;> rw [hc] at hx
      · cases hb : behav (attempt + 1) with
        | ok r =>
            rw [hb] at hx
            simp at hx
            rcases hx with hx | hx | hx | hx <;>
              simp [hx, isSemAct, isAcquire, isRelease]
        | raised msg =>
            rw [hb] at hx
            by_cases hq : isQuotaMsg msg = true
            · simp [hq] at hx
              rcases hx with hx | hx | hx | hx | hx | hx
              · simp [hx, isSemAct, isAcquire, isRelease]
              · simp [hx, isSemAct, isAcquire, isRelease]
              · simp [hx, isSemAct, isAcquire, isRelease]
              · simp [hx, isSemAct, isAcquire, isRelease]
              · simp [hx, isSemAct, isAcquire, isRelease]
              · exact ih (attempt + 1) (some msg) x hx
            · by_cases ht : isTransientMsg msg = true
              · simp [hq, ht] at hx
                rcases hx with hx | hx | hx | hx | hx
                · simp [hx, isSemAct, isAcquire, isRelease]
                · simp [hx, isSemAct, isAcquire, isRelease]
                · simp [hx, isSemAct, isAcquire, isRelease]
                · simp [hx, isSemAct, isAcquire, isRelease]
                · exact ih (attempt + 1) (some msg) x hx
              · simp [hq, ht] at hx
                rcases hx with hx | hx | hx | hx <;>
                  simp [hx, isSemAct, isAcquire, isRelease]
      · simp at hx
        simp [hx, isSemAct, isAcquire, isRelease]

/-- An `error` event at attempt `a` can only come from the work stage raising
at attempt `a`, and only from an iteration after the entry counter. -/
theorem observe_loop_error_mem (cfg : RetryConfig) (cancelAt : Nat → Bool)
    (behav : Nat → AttemptOutcome) :
    ∀ (fuel attempt : Nat) (lastErr : Option String) (a : Nat) (msg : String),
      Action.log (Event.error a msg) ∈
          (observe_loop cfg cancelAt behav attempt fuel lastErr).1 →
      behav a = AttemptOutcome.raised msg ∧ attempt < a := by
  intro fuel
  induction fuel with
  | zero =>
      intro attempt lastErr a msg hx
      simp [observe_loop] at hx
  | succ f ih =>
      intro attempt lastErr a msg hx
      simp only [observe_loop] at hx
      cases hc : cancelAt (attempt + 1) <;> rw [hc] at hx
      · cases hb : behav (attempt + 1) with
        | ok r =>
            rw [hb] at hx
            simp at hx
        | raised msg0 =>
            rw [hb] at hx
            by_cases hq : isQuotaMsg msg0 = true
            · simp [hq] at hx
              rcases hx with ⟨ha, hm⟩ | hx
              · subst ha; subst hm; exact ⟨hb, Nat.lt_succ_self attempt⟩
              · obtain ⟨h1, h2⟩ := ih (attempt + 1) (some msg0) a msg hx
                exact ⟨h1, Nat.lt_of_succ_lt h2⟩
            · by_cases ht : isTransientMsg msg0 = true
              · simp [hq, ht] at hx
                rcases hx with ⟨ha, hm⟩ | hx
                · subst ha; subst hm; exact ⟨hb, Nat.lt_succ_self attempt⟩
                · obtain ⟨h1, h2⟩ := ih (attempt + 1) (some msg0) a msg hx
                  exact ⟨h1, Nat.lt_of_succ_lt h2⟩
              · simp [hq, ht] at hx
                obtain ⟨ha, hm⟩ := hx
                subst ha; subst hm; exact ⟨hb, Nat.lt_succ_self attempt⟩
      · simp at hx

/-- A `quota_backoff` event at attempt `a` carries exactly the wait
`quota_initial * 1.5 ^ (a - 1)` and certifies that attempt `a` raised a
quota-classified message. -/
theorem observe_loop_qb_mem (cfg : RetryConfig) (cancelAt : Nat → Bool)
    (behav : Nat → AttemptOutcome) :
    ∀ (fuel attempt : Nat) (lastErr : Option String) (a : Nat) (w : ℚ),
      Action.log (Event.quota_backoff a w) ∈
          (observe_loop cfg cancelAt behav attempt fuel lastErr).1 →
      w = quotaWait cfg a ∧
        ∃ msg, behav a = AttemptOutcome.raised msg ∧ isQuotaMsg msg = true := by
  intro fuel
  induction fuel with
  | zero =>
      intro attempt lastErr a w hx
      simp [observe_loop] at hx
  | succ f ih =>
      intro attempt lastErr a w hx
      simp only [observe_loop] at hx
      cases hc : cancelAt (attempt + 1) <;> rw [hc] at hx
      · cases hb : behav (attempt + 1) with
        | ok r =>
            rw [hb] at hx
            simp at hx
        | raised msg0 =>
            rw [hb] at hx
            by_cases hq : isQuotaMsg msg0 = true
            · simp [hq] at hx
              rcases hx with ⟨ha, hw⟩ | hx
              · subst ha; subst hw; exact ⟨rfl, msg0, hb, hq⟩
              · exact ih (attempt + 1) (some msg0) a w hx
            · by_cases ht : isTransientMsg msg0 = true
              · simp [hq, ht] at hx
                exact ih (attempt + 1) (some msg0) a w hx
              · simp [hq, ht] at hx
      · simp at hx

/-- Every quota-classified failure is followed (adjacently) by the
`quota_backoff` log and a sleep of exactly the quota schedule. -/
theorem observe_loop_quota_adj (cfg : RetryConfig) (cancelAt : Nat → Bool)
    (behav : Nat → AttemptOutcome) :
    ∀ (fuel attempt : Nat) (lastErr : Option String) (a : Nat) (msg : String),
      Action.log (Event.error a msg) ∈
          (observe_loop cfg cancelAt behav attempt fuel lastErr).1 →
      isQuotaMsg msg = true →
      Adjacent (Action.log (Event.quota_backoff a (quotaWait cfg a)))
        (Action.sleep (quotaWait cfg a))
        (observe_loop cfg cancelAt behav attempt fuel lastErr).1 := by
  intro fuel
  induction fuel with
  | zero =>
      intro attempt lastErr a msg hx
      simp [observe_loop] at hx
  | succ f ih =>
      intro attempt lastErr a msg hx hq
      cases hc : cancelAt (attempt + 1)
      · cases hb : behav (attempt + 1) with
        | ok r =>
            rw [show (observe_loop cfg cancelAt behav attempt (f + 1) lastErr).1 =
                [Action.log (Event.start_attempt (attempt + 1)), Action.invoke,
                 Action.log (Event.success (attempt + 1)),
                 Action.metricIncr ("successful_runs")] by
              simp [observe_loop, hc, hb]] at hx
            simp at hx
        | raised msg0 =>
            by_cases hq0 : isQuotaMsg msg0 = true
            · rw [show (observe_loop cfg cancelAt behav attempt (f + 1) lastErr).1 =
                  Action.log (Event.start_attempt (attempt + 1)) :: Action.invoke ::
                    Action.log (Event.error (attempt + 1) msg0) ::
                    Action.log (Event.quota_backoff (attempt + 1)
                      (quotaWait cfg (attempt + 1))) ::
                    Action.sleep (quotaWait cfg (attempt + 1)) ::
                    (observe_loop cfg cancelAt behav (attempt + 1) f (some msg0)).1 by
                simp [observe_loop, hc, hb, hq0]] at hx ⊢
              simp at hx
              rcases hx with ⟨ha, hm⟩ | hx
              · subst ha; subst hm
                exact (Adjacent.here _ _ _).cons _ |>.cons _ |>.cons _
              · exact ((((ih (attempt + 1) (some msg0) a msg hx hq).cons _).cons
                  _).cons _).cons _ |>.cons _
            · by_cases ht : isTransientMsg msg0 = true
              · rw [show (observe_loop cfg cancelAt behav attempt (f + 1) lastErr).1 =
                    Action.log (Event.start_attempt (attempt + 1)) :: Action.invoke ::
                      Action.log (Event.error (attempt + 1) msg0) ::
                      Action.sleep (transientWait cfg (attempt + 1)) ::
                      (observe_loop cfg cancelAt behav (attempt + 1) f (some msg0)).1 by
                  simp [observe_loop, hc, hb, hq0, ht]] at hx ⊢
                simp at hx
                rcases hx with ⟨ha, hm⟩ | hx
                · subst ha; subst hm; simp [hq0] at hq
                · exact (((ih (attempt + 1) (some msg0) a msg hx hq).cons
                    _).cons _).cons _ |>.cons _
              · rw [show (observe_loop cfg cancelAt behav attempt (f + 1) lastErr).1 =
                    [Action.log (Event.start_attempt (attempt + 1)), Action.invoke,
                     Action.log (Event.error (attempt + 1) msg0),
                     Action.log (Event.non_retriable msg0)] by
                  simp [observe_loop, hc, hb, hq0, ht]] at hx
                simp at hx
                obtain ⟨ha, hm⟩ := hx
                subst ha; subst hm; simp [hq0] at hq
      · rw [show (observe_loop cfg cancelAt behav attempt (f + 1) lastErr).1 =
            [Action.log (Event.cancelled (attempt + 1))] by
          simp [observe_loop, hc]] at hx
        simp at hx

/-- Every transient-classified (and not quota-classified) failure is followed
immediately by a sleep of exactly the transient schedule, with no dedicated
backoff log event in between. -/
theorem observe_loop_transient_adj (cfg : RetryConfig) (cancelAt : Nat → Bool)
    (behav : Nat → AttemptOutcome) :
    ∀ (fuel attempt : Nat) (lastErr : Option String) (a : Nat) (msg : String),
      Action.log (Event.error a msg) ∈
          (observe_loop cfg cancelAt behav attempt fuel lastErr).1 →
      isQuotaMsg msg = false →
      isTransientMsg msg = true →
      Adjacent (Action.log (Event.error a msg))
        (Action.sleep (transientWait cfg a))
        (observe_loop cfg cancelAt behav attempt fuel lastErr).1 := by
  intro fuel
  induction fuel with
  | zero =>
      intro attempt lastErr a msg hx
      simp [observe_loop] at hx
  | succ f ih =>
      intro attempt lastErr a msg hx hq ht
      cases hc : cancelAt (attempt + 1)
      · cases hb : behav (attempt + 1) with
        | ok r =>
            rw [show (observe_loop cfg cancelAt behav attempt (f + 1) lastErr).1 =
                [Action.log (Event.start_attempt (attempt + 1)), Action.invoke,
                 Action.log (Event.success (attempt + 1)),
                 Action.metricIncr ("successful_runs")] by
              simp [observe_loop, hc, hb]] at hx
            simp at hx
        | raised msg0 =>
            by_cases hq0 : isQuotaMsg msg0 = true
            · rw [show (observe_loop cfg cancelAt behav attempt (f + 1) lastErr).1 =
                  Action.log (Event.start_attempt (attempt + 1)) :: Action.invoke ::
                    Action.log (Event.error (attempt + 1) msg0) ::
                    Action.log (Event.quota_backoff (attempt + 1)
                      (quotaWait cfg (attempt + 1))) ::
                    Action.sleep (quotaWait cfg (attempt + 1)) ::
                    (observe_loop cfg cancelAt behav (attempt + 1) f (some msg0)).1 by
                simp [observe_loop, hc, hb, hq0]] at hx ⊢
              simp at hx
              rcases hx with ⟨ha, hm⟩ | hx
              · subst ha; subst hm; simp [hq0] at hq
              · exact ((((ih (attempt + 1) (some msg0) a msg hx hq ht).cons
                  _).cons _).cons _).cons _ |>.cons _
            · by_cases ht0 : isTransientMsg msg0 = true
              · rw [show (observe_loop cfg cancelAt behav attempt (f + 1) lastErr).1 =
                    Action.log (Event.start_attempt (attempt + 1)) :: Action.invoke ::
                      Action.log (Event.error (attempt + 1) msg0) ::
                      Action.sleep (transientWait cfg (attempt + 1)) ::
                      (observe_loop cfg cancelAt behav (attempt + 1) f (some msg0)).1 by
                  simp [observe_loop, hc, hb, hq0, ht0]] at hx ⊢
                simp at hx
                rcases hx with ⟨ha, hm⟩ | hx
                · subst ha; subst hm
                  exact (Adjacent.here _ _ _).cons _ |>.cons _
                · exact (((ih (attempt + 1) (some msg0) a msg hx hq ht).cons
                    _).cons _).cons _ |>.cons _
              · rw [show (observe_loop cfg cancelAt behav attempt (f + 1) lastErr).1 =
                    [Action.log (Event.start_attempt (attempt + 1)), Action.invoke,
                     Action.log (Event.error (attempt + 1) msg0),
                     Action.log (Event.non_retriable msg0)] by
                  simp [observe_loop, hc, hb, hq0, ht0]] at hx
                simp at hx
                obtain ⟨ha, hm⟩ := hx
                subst ha; subst hm; simp [ht0] at ht
      · rw [show (observe_loop cfg cancelAt behav attempt (f + 1) lastErr).1 =
            [Action.log (Event.cancelled (attempt + 1))] by
          simp [observe_loop, hc]] at hx
        simp at hx

theorem alistLookup_setSession (m : SessionMap) (sid : String)
    (f : SessionState → SessionState) :
    alistLookup (setSession m sid f) sid = (alistLookup m sid).map f := by
  induction m with
  | nil => rfl
  | cons kv t ih =>
      by_cases h : kv.1 = sid
      · simp [setSession, alistLookup, h]
      · simpa [setSession, alistLookup, h] using ih

theorem cancelSession_lookup (m : SessionMap) (sid : String) (st : SessionState)
    (h : alistLookup m sid = some st) :
    alistLookup (cancelSession m sid) sid =
      some { st with cancel := true, pause_event := true } := by
  simp [cancelSession, alistLookup_setSession, h]

/-- With the session already cancelled at the first check, the executor logs
`cancelled` and returns the `CANCELLED` error without invoking the stage. -/
theorem observe_run_cancelled (cfg : RetryConfig) (hasSem : Bool)
    (behav : Nat → AttemptOutcome) (h : 0 < cfg.max_retries) :
    observe_run cfg hasSem (fun _ => true) behav =
      ((if hasSem then [Action.acquire] else []) ++
         [Action.log (Event.cancelled 1)] ++
         (if hasSem then [Action.release] else []) ++
         [Action.log (Event.finished_observe_run 1)],
       RunResult.failure ("CANCELLED")) := by
  obtain ⟨n, hn⟩ : ∃ n, cfg.max_retries = n + 1 := ⟨cfg.max_retries - 1, by omega⟩
  simp [observe_run, withFinally, hn, observe_loop]

/-- A geometric wait schedule: each delay is the previous one times `r`. -/
def geomList (w r : ℚ) : Nat → List ℚ
  | 0 => []
  | n + 1 => w :: geomList (w * r) r n

theorem geomList_eq_map (r : ℚ) : ∀ (n : Nat) (w : ℚ),
    geomList w r n = (List.range n).map fun i => w * r ^ i := by
  intro n
  induction n with
  | zero => intro w; simp [geomList]
  | succ k ih =>
      intro w
      rw [geomList, ih (w * r), List.range_succ_eq_map, List.map_cons,
        List.map_map]
      refine congrArg₂ _ (by simp) (List.map_congr_left fun i _ => ?_)
      simp [Function.comp, pow_succ]
      ring

/-- A result whose (truncated, lowercased) text matches the quota pattern
never evaluates cleanly: the loop sleeps a doubling schedule and ends with no
record. -/
theorem eval_loop_quota_spec (result : String)
    (h : aggQuota (pyLower (pyTake result 2000)) = true) :
    ∀ (fuel retry : Nat) (wait : ℚ),
      (eval_loop result retry fuel wait).2 = none ∧
        aggSleeps (eval_loop result retry fuel wait).1 = geomList wait 2 fuel := by
  intro fuel
  induction fuel with
  | zero => intro retry wait; simp [eval_loop, aggSleeps, geomList]
  | succ f ih =>
      intro retry wait
      obtain ⟨h1, h2⟩ := ih (retry + 1) (wait * 2)
      refine ⟨by simp [eval_loop, h, h1], ?_⟩
      simp [eval_loop, h, aggSleeps, geomList]
      simpa [aggSleeps] using h2

/-- A result matching the overloaded (503/unavailable) pattern but not the
quota pattern: ×1.5 schedule, no record. -/
theorem eval_loop_overloaded_spec (result : String)
    (hq : aggQuota (pyLower (pyTake result 2000)) = false)
    (ho : aggOverloaded (pyLower (pyTake result 2000)) = true) :
    ∀ (fuel retry : Nat) (wait : ℚ),
      (eval_loop result retry fuel wait).2 = none ∧
        aggSleeps (eval_loop result retry fuel wait).1 =
          geomList wait (3 / 2) fuel := by
  intro fuel
  induction fuel with
  | zero => intro retry wait; simp [eval_loop, aggSleeps, geomList]
  | succ f ih =>
      intro retry wait
      obtain ⟨h1, h2⟩ := ih (retry + 1) (wait * (3 / 2))
      refine ⟨by simp [eval_loop, hq, ho, h1], ?_⟩
      simp [eval_loop, hq, ho, aggSleeps, geomList]
      simpa [aggSleeps] using h2

/-- A clean result evaluates on the very first iteration with the full score
and no backoff actions. -/
theorem eval_loop_clean_spec (result : String)
    (hq : aggQuota (pyLower (pyTake result 2000)) = false)
    (ho : aggOverloaded (pyLower (pyTake result 2000)) = false)
    (fuel retry : Nat) (wait : ℚ) :
    eval_loop result retry (fuel + 1) wait =
      ([], some ⟨9, [], pyTake result 1000⟩) := by
  simp [eval_loop, hq, ho]

/-- The loop sleeps at most `fuel` times. -/
theorem eval_loop_sleeps_len (result : String) :
    ∀ (fuel retry : Nat) (wait : ℚ),
      (aggSleeps (eval_loop result retry fuel wait).1).length ≤ fuel := by
  intro fuel
  induction fuel with
  | zero => intro retry wait; simp [eval_loop, aggSleeps]
  | succ f ih =>
      intro retry wait
      by_cases hq : aggQuota (pyLower (pyTake result 2000)) = true
      · simpa [eval_loop, hq, aggSleeps] using ih (retry + 1) (wait * 2)
      · by_cases ho : aggOverloaded (pyLower (pyTake result 2000)) = true
        · simpa [eval_loop, hq, ho, aggSleeps] using ih (retry + 1) (wait * (3 / 2))
        · simp [eval_loop, hq, ho, aggSleeps]

theorem compactList_eq_map : ∀ (xs : List PyVal) (m : Nat),
    compactList xs m = xs.map fun x => compact_context x m := by
  intro xs m
  induction xs with
  | nil => simp [compactList]
  | cons x t ih => simp [compactList, ih]

theorem compactFields_eq_map : ∀ (kvs : List (String × PyVal)) (m : Nat),
    compactFields kvs m = kvs.map fun kv =>
      (kv.1, compact_context kv.2
        (if strEndsWith (pyLower kv.1) "content" then m / 4 else m)) := by
  intro kvs m
  induction kvs with
  | nil => simp [compactFields]
  | cons kv t ih => simp [compactFields, ih]

/-- Compacting element-wise commutes with `take`, so the over-long-list case
equals the source's `obj[:50] + ["...[truncated items]"]` followed by
element-wise compaction. -/
theorem compactList_take_comm (xs : List PyVal) (m : Nat) :
    (compactList xs m).take 50 ++ [compactStr itemsMarker m] =
      compactList (xs.take 50 ++ [PyVal.str itemsMarker]) m := by
  simp [compactList_eq_map, List.map_take, compact_context]

theorem Adjacent.append {α : Type} {x y : α} {l : List α} (s : List α)
    (h : Adjacent x y l) : Adjacent x y (l ++ s) := by
  obtain ⟨p, q, rfl⟩ := h
  exact ⟨p, q ++ s, by simp⟩

/-- Membership of an `error` log in the full trace comes from the loop body. -/
theorem observe_run_error_mem (cfg : RetryConfig) (hasSem : Bool)
    (cancelAt : Nat → Bool) (behav : Nat → AttemptOutcome) (a : Nat)
    (msg : String)
    (h : Action.log (Event.error a msg) ∈ (observe_run cfg hasSem cancelAt behav).1) :
    Action.log (Event.error a msg) ∈
      (observe_loop cfg cancelAt behav 0 cfg.max_retries none).1 := by
  cases hasSem <;> simpa [observe_run, withFinally] using h

/-- The loop body's trace is an infix of the full trace, so adjacency lifts. -/
theorem observe_run_adj_lift (cfg : RetryConfig) (hasSem : Bool)
    (cancelAt : Nat → Bool) (behav : Nat → AttemptOutcome) {x y : Action}
    (h : Adjacent x y (observe_loop cfg cancelAt behav 0 cfg.max_retries none).1) :
    Adjacent x y (observe_run cfg hasSem cancelAt behav).1 := by
  have h2 := (h.append ((if hasSem then [Action.release] else []) ++
    [Action.log (Event.finished_observe_run
      (observe_loop cfg cancelAt behav 0 cfg.max_retries none).2.2)])).prepend
    (if hasSem then [Action.acquire] else [])
  simpa [observe_run, withFinally] using h2

/-! ## Claims -/

/-- C2: every failed attempt whose message matches the quota pattern
(case-insensitive `resource_exhausted` / `quota` / `429` / `rate-limit`) logs
a `quota_backoff` event, immediately followed by a sleep of exactly
`QUOTA_BACKOFF_INITIAL * 1.5 ^ (attempt - 1)`, a schedule strictly
increasing in the attempt number. -/
theorem claim_C2 (cfg : RetryConfig) (hasSem : Bool) (cancelAt : Nat → Bool)
    (behav : Nat → AttemptOutcome) (a : Nat) (msg : String)
    (herr : Action.log (Event.error a msg) ∈ (observe_run cfg hasSem cancelAt behav).1)
    (hq : isQuotaMsg msg = true) :
    (Action.log (Event.quota_backoff a (quotaWait cfg a)) ∈
        (observe_run cfg hasSem cancelAt behav).1 ∧
      Adjacent (Action.log (Event.quota_backoff a (quotaWait cfg a)))
        (Action.sleep (quotaWait cfg a)) (observe_run cfg hasSem cancelAt behav).1) ∧
    quotaWait cfg a = cfg.quota_initial * (3 / 2) ^ (a - 1) ∧
    (0 < cfg.quota_initial →
      ∀ b c : Nat, 1 ≤ b → b < c → quotaWait cfg b < quotaWait cfg c) := by
  have hmem := observe_run_error_mem cfg hasSem cancelAt behav a msg herr
  have hadj := observe_run_adj_lift cfg hasSem cancelAt behav
    (observe_loop_quota_adj cfg cancelAt behav cfg.max_retries 0 none a msg hmem hq)
  refine ⟨⟨?_, hadj⟩, rfl, ?_⟩
  · obtain ⟨p, q, hpq⟩ := hadj
    rw [hpq]
    simp
  · intro hqi b c hb hbc
    have hexp : b - 1 < c - 1 := by omega
    have hpow : ((3 : ℚ) / 2) ^ (b - 1) < ((3 : ℚ) / 2) ^ (c - 1) := by
      apply pow_lt_pow_right₀ (by norm_num) hexp
    simpa [quotaWait] using mul_lt_mul_of_pos_left hpow hqi

/-- C3: every failed attempt whose message matches the transient pattern
(`unavailable` / `timeout` / `internal`) and not the quota pattern sleeps
exactly `BASE_RETRY_DELAY * 2 ^ (attempt - 1)` immediately after the `error`
log (no dedicated backoff event for that attempt), on a schedule that does
not depend on the quota-class configuration. -/
theorem claim_C3 (cfg : RetryConfig) (hasSem : Bool) (cancelAt : Nat → Bool)
    (behav : Nat → AttemptOutcome) (a : Nat) (msg : String)
    (herr : Action.log (Event.error a msg) ∈ (observe_run cfg hasSem cancelAt behav).1)
    (hq : isQuotaMsg msg = false) (ht : isTransientMsg msg = true) :
    Adjacent (Action.log (Event.error a msg))
      (Action.sleep (transientWait cfg a)) (observe_run cfg hasSem cancelAt behav).1 ∧
    (∀ w : ℚ, Action.log (Event.quota_backoff a w) ∉
        (observe_run cfg hasSem cancelAt behav).1) ∧
    transientWait cfg a = cfg.base_delay * 2 ^ (a - 1) ∧
    (∀ q q' : ℚ, transientWait { cfg with quota_initial := q } a =
        transientWait { cfg with quota_initial := q' } a) := by
  have hmem := observe_run_error_mem cfg hasSem cancelAt behav a msg herr
  refine ⟨observe_run_adj_lift cfg hasSem cancelAt behav
    (observe_loop_transient_adj cfg cancelAt behav cfg.max_retries 0 none a msg
      hmem hq ht), ?_, rfl, fun q q' => rfl⟩
  intro w hw
  have hw' : Action.log (Event.quota_backoff a w) ∈
      (observe_loop cfg cancelAt behav 0 cfg.max_retries none).1 := by
    cases hasSem <;> simpa [observe_run, withFinally] using hw
  obtain ⟨-, msg', hmsg', hqmsg'⟩ :=
    observe_loop_qb_mem cfg cancelAt behav cfg.max_retries 0 none a w hw'
  obtain ⟨hbehav, -⟩ :=
    observe_loop_error_mem cfg cancelAt behav cfg.max_retries 0 none a msg hmem
  rw [hbehav] at hmsg'
  cases hmsg'
  rw [hqmsg'] at hq
  exact Bool.true_eq_false ▸ hq

/-- C4: every invocation of the executor yields exactly one terminal outcome
(success, max_retries_exceeded, non_retriable, or cancelled). -/
theorem claim_C4 (cfg : RetryConfig) (hasSem : Bool) (cancelAt : Nat → Bool)
    (behav : Nat → AttemptOutcome) :
    (observe_run cfg hasSem cancelAt behav).1.countP isTerminalAct = 1 := by
  cases hasSem <;>
    simp [observe_run, withFinally, isTerminalAct,
      observe_loop_terminal_count]

/-- C6: when a limiter is supplied, the executor acquires it exactly once, as
the first action (before the retry loop), releases it exactly once, and logs
`finished_observe_run` (with the attempts taken) as the last action — and the
`finally` wrapper guarantees the same for an arbitrary loop-body outcome,
covering exceptions propagating out of the loop. -/
theorem claim_C6 (cfg : RetryConfig) (cancelAt : Nat → Bool)
    (behav : Nat → AttemptOutcome) :
    ((observe_run cfg true cancelAt behav).1.countP isAcquire = 1 ∧
     (observe_run cfg true cancelAt behav).1.countP isRelease = 1 ∧
     (observe_run cfg true cancelAt behav).1.head? = some Action.acquire ∧
     (observe_run cfg true cancelAt behav).1.getLast? =
       some (Action.log (Event.finished_observe_run
         (observe_loop cfg cancelAt behav 0 cfg.max_retries none).2.2))) ∧
    ∀ (bodyActs : List Action) (res : RunResult) (fin : Nat),
      (∀ x ∈ bodyActs, isSemAct x = false) →
      (withFinally true (bodyActs, res, fin)).1.countP isAcquire = 1 ∧
      (withFinally true (bodyActs, res, fin)).1.countP isRelease = 1 ∧
      (withFinally true (bodyActs, res, fin)).1.head? = some Action.acquire ∧
      (withFinally true (bodyActs, res, fin)).1.getLast? =
        some (Action.log (Event.finished_observe_run fin)) := by
  have main : ∀ (bodyActs : List Action) (res : RunResult) (fin : Nat),
      (∀ x ∈ bodyActs, isSemAct x = false) →
      (withFinally true (bodyActs, res, fin)).1.countP isAcquire = 1 ∧
      (withFinally true (bodyActs, res, fin)).1.countP isRelease = 1 ∧
      (withFinally true (bodyActs, res, fin)).1.head? = some Action.acquire ∧
      (withFinally true (bodyActs, res, fin)).1.getLast? =
        some (Action.log (Event.finished_observe_run fin)) := by
    intro bodyActs res fin hns
    have hA : bodyActs.countP isAcquire = 0 := by
      rw [List.countP_eq_zero]
      intro x hx
      have h := hns x hx
      simp [isSemAct, Bool.or_eq_false_iff] at h
      simp [h.1]
    have hR : bodyActs.countP isRelease = 0 := by
      rw [List.countP_eq_zero]
      intro x hx
      have h := hns x hx
      simp [isSemAct, Bool.or_eq_false_iff] at h
      simp [h.2]
    refine ⟨?_, ?_, ?_, ?_⟩
    · simp [withFinally, isAcquire, isRelease, hA]
    · simp [withFinally, isAcquire, isRelease, hR]
    · simp [withFinally]
    · rw [show (withFinally true (bodyActs, res, fin)).1 =
          ([Action.acquire] ++ bodyActs ++ [Action.release]) ++
            [Action.log (Event.finished_observe_run fin)] by
        simp [withFinally]]
      exact List.getLast?_concat _
  refine ⟨?_, main⟩
  exact main (observe_loop cfg cancelAt behav 0 cfg.max_retries none).1
    (observe_loop cfg cancelAt behav 0 cfg.max_retries none).2.1
    (observe_loop cfg cancelAt behav 0 cfg.max_retries none).2.2
    (observe_loop_no_sem cfg cancelAt behav cfg.max_retries 0 none)

/-- C5: cancelling a known session sets the cancel flag and opens the pause
gate (so a waiter blocked on it is no longer blocked); an executor whose
cancellation checks read that session then returns the `CANCELLED` error
result without invoking the work stage. -/
theorem claim_C5 (m : SessionMap) (sid : String) (st : SessionState)
    (hknown : alistLookup m sid = some st) (cfg : RetryConfig) (hasSem : Bool)
    (behav : Nat → AttemptOutcome) (hpos : 0 < cfg.max_retries) :
    (∃ st', alistLookup (cancelSession m sid) sid = some st' ∧
      st'.cancel = true ∧ st'.pause_event = true) ∧
    is_cancelled (cancelSession m sid) sid = true ∧
    (observe_run cfg hasSem
        (fun _ => is_cancelled (cancelSession m sid) sid) behav).2 =
      RunResult.failure ("CANCELLED") ∧
    (observe_run cfg hasSem
        (fun _ => is_cancelled (cancelSession m sid) sid) behav).1.countP
      isInvoke = 0 := by
  have hl := cancelSession_lookup m sid st hknown
  have hic : is_cancelled (cancelSession m sid) sid = true := by
    simp [is_cancelled, hl]
  have hfn : (fun _ : Nat => is_cancelled (cancelSession m sid) sid) =
      (fun _ => true) := by
    simp [hic]
  refine ⟨⟨_, hl, rfl, rfl⟩, hic, ?_, ?_⟩
  · rw [hfn, observe_run_cancelled cfg hasSem behav hpos]
  · rw [hfn, observe_run_cancelled cfg hasSem behav hpos]
    cases hasSem <;> simp [isInvoke]

/-- C1 (counterexample): in the aggregation pass, a result matching the quota
pattern (here `"429"`) sleeps 30, 60, 120, 240, 480 — the growth factor is 2,
not 1.5 (the second delay is not `30 * 1.5`); and a 503-pattern result starts
from the same base 30 as the quota-pattern one, not from a smaller base. -/
theorem claim_C1_counterexample :
    aggSleeps (eval_page ("429")).1 = [30, 60, 120, 240, 480] ∧
    (aggSleeps (eval_page ("429")).1).head? = some 30 ∧
    ¬ ((60 : ℚ) = 30 * (3 / 2)) ∧
    (aggSleeps (eval_page ("503")).1).head? = some 30 := by
  have hq : aggQuota (pyLower (pyTake ("429") 2000)) = true := by decide
  have hq5 : aggQuota (pyLower (pyTake ("503") 2000)) = false := by decide
  have ho5 : aggOverloaded (pyLower (pyTake ("503") 2000)) = true := by decide
  have h429 := (eval_loop_quota_spec ("429") hq 5 0 30).2
  have h503 := (eval_loop_overloaded_spec ("503") hq5 ho5 5 0 30).2
  have e429 : aggSleeps (eval_page ("429")).1 = geomList 30 2 5 := by
    simpa [eval_page] using h429
  have e503 : aggSleeps (eval_page ("503")).1 = geomList 30 (3 / 2) 5 := by
    simpa [eval_page] using h503
  refine ⟨?_, ?_, by norm_num, ?_⟩
  · rw [e429]
    norm_num [geomList]
  · rw [e429]
    norm_num [geomList]
  · rw [e503]
    norm_num [geomList]

/-- C1 (amended): the aggregation retry loop runs up to 5 attempts; for
quota-pattern result text the delays start at 30 and double each attempt
(factor 2, i.e. `30 * 2 ^ i`); for 503/unavailable-pattern text (without a
quota match) the delays grow by factor 1.5 from the same base 30
(`30 * 1.5 ^ i`), not from a smaller one. -/
theorem claim_C1 (result : String) :
    (aggSleeps (eval_page result).1).length ≤ 5 ∧
    (aggQuota (pyLower (pyTake result 2000)) = true →
      aggSleeps (eval_page result).1 =
        (List.range 5).map fun i => 30 * 2 ^ i) ∧
    (aggQuota (pyLower (pyTake result 2000)) = false →
      aggOverloaded (pyLower (pyTake result 2000)) = true →
      aggSleeps (eval_page result).1 =
        (List.range 5).map fun i => 30 * (3 / 2) ^ i) := by
  refine ⟨?_, fun hq => ?_, fun hq ho => ?_⟩
  · simpa [eval_page] using eval_loop_sleeps_len result 5 0 30
  · have h := (eval_loop_quota_spec result hq 5 0 30).2
    rw [geomList_eq_map] at h
    simpa [eval_page] using h
  · have h := (eval_loop_overloaded_spec result hq ho 5 0 30).2
    rw [geomList_eq_map] at h
    simpa [eval_page] using h

/-- C7: an item whose recorded result text (first 2000 chars, lowercased)
contains `"429"` exhausts all 5 aggregation attempts, never raises (the loop
is a total function), and ends with the degraded record: fixed mid-range
score 5.0 and the deferred-evaluation issue; and the aggregation pass yields
exactly one evaluation record per recorded result. -/
theorem claim_C7 (result : String)
    (h429 : strContains (pyLower (pyTake result 2000)) ("429") = true) :
    (eval_page result).2 = ⟨5, [deferredIssue], pyTake result 1000⟩ ∧
    deferredIssue ∈ (eval_page result).2.issues ∧
    (∀ rs : List (String × String),
      (aggregate rs).map Prod.fst = rs.map Prod.fst) := by
  have hq : aggQuota (pyLower (pyTake result 2000)) = true := by
    simp [aggQuota, h429]
  have h5 := (eval_loop_quota_spec result hq 5 0 30).1
  refine ⟨?_, ?_, fun rs => ?_⟩
  · simp [eval_page, h5]
  · simp [eval_page, h5]
  · simp [aggregate]

/-- C10: any recorded result whose stringified first 2000 characters
(lowercased) contain none of the failure signatures gets the full-score
evaluation (9.0, no issues) on the first aggregation attempt, with no
backoff actions — this covers error results (`{'error': ...}` dictionaries)
from non-retriable failures, retry exhaustion, or cancellation whose message
lacks those substrings. -/
theorem claim_C10 (result : String)
    (hq : aggQuota (pyLower (pyTake result 2000)) = false)
    (ho : aggOverloaded (pyLower (pyTake result 2000)) = false) :
    eval_page result = ([], ⟨9, [], pyTake result 1000⟩) := by
  have h := eval_loop_clean_spec result hq ho 4 0 30
  simp [eval_page, h]

/-- C8: `save` then a fresh `load` reproduces the in-memory mapping; `clear`
then `load` yields the empty mapping, and after `clear` the on-disk snapshot
no longer exists. -/
theorem claim_C8 {α : Type} (b : BankState α) :
    (bank_load (bank_fresh (bank_save b).disk)).store = b.store ∧
    (bank_load (bank_clear b)).store = [] ∧
    (bank_clear b).disk = none ∧
    (bank_load (bank_fresh (bank_clear b).disk)).store = [] := by
  simp [bank_load, bank_save, bank_clear, bank_fresh]

/-- C9: payload compaction cuts every over-long string and appends the
truncation marker; truncates every list longer than 50 elements to the first
50 plus a marker element (giving 51 elements), compacting element-wise;
keeps shorter lists element-wise; compacts mappings field-by-field with a
4×-smaller budget for keys ending in `content`, preserving the key set; and
leaves all other values unchanged. -/
theorem claim_C9 (m : Nat) (s : String) (xs : List PyVal)
    (kvs : List (String × PyVal)) (n : Int) (bv : Bool) :
    compact_context (PyVal.str s) m =
      (if pyLen s ≤ m then PyVal.str s
       else PyVal.str (pyTake s m ++ truncMarker)) ∧
    (50 < xs.length →
      compact_context (PyVal.list xs) m =
        PyVal.list (compactList (xs.take 50 ++ [PyVal.str itemsMarker]) m) ∧
      (compactList (xs.take 50 ++ [PyVal.str itemsMarker]) m).length = 51) ∧
    (xs.length ≤ 50 →
      compact_context (PyVal.list xs) m =
        PyVal.list (xs.map fun x => compact_context x m)) ∧
    compact_context (PyVal.dict kvs) m =
      PyVal.dict (kvs.map fun kv => (kv.1, compact_context kv.2
        (if strEndsWith (pyLower kv.1) "content" then m / 4 else m))) ∧
    (compactFields kvs m).map Prod.fst = kvs.map Prod.fst ∧
    compact_context (PyVal.intV n) m = PyVal.intV n ∧
    compact_context (PyVal.boolV bv) m = PyVal.boolV bv ∧
    compact_context PyVal.noneV m = PyVal.noneV := by
  refine ⟨?_, fun hlong => ⟨?_, ?_⟩, fun hshort => ?_, ?_, ?_, ?_, ?_, ?_⟩
  · simp [compact_context, compactStr]
  · rw [show compact_context (PyVal.list xs) m =
        PyVal.list ((compactList xs m).take 50 ++ [compactStr itemsMarker m]) by
      simp [compact_context, hlong]]
    rw [compactList_take_comm]
  · rw [compactList_eq_map]
    have h50 : (xs.take 50).length = 50 := by
      simp [List.length_take]
      omega
    simp [h50]
    omega
  · simp [compact_context, Nat.not_lt.mpr hshort, compactList_eq_map]
  · simp [compact_context, compactFields_eq_map]
  · rw [compactFields_eq_map]
    simp
  · simp [compact_context]
  · simp [compact_context]
  · simp [compact_context]

/-! ## Witnesses -/

/-- Witness for C1 at the concrete quota-pattern result `"429"` and
overloaded-pattern result `"503"`. -/
theorem claim_C1_witness :
    (aggSleeps (eval_page ("429")).1).length ≤ 5 ∧
    aggSleeps (eval_page ("429")).1 = ((List.range 5).map fun i => 30 * 2 ^ i) ∧
    aggSleeps (eval_page ("503")).1 =
      ((List.range 5).map fun i => 30 * (3 / 2) ^ i) :=
  ⟨(claim_C1 ("429")).1, (claim_C1 ("429")).2.1 (by decide),
   (claim_C1 ("503")).2.2 (by decide) (by decide)⟩

/-- Witness for C2: a single-attempt run whose work stage raises `"429"`. -/
theorem claim_C2_witness :
    (Action.log (Event.quota_backoff 1 (quotaWait ⟨1, 5, 30⟩ 1)) ∈
        (observe_run ⟨1, 5, 30⟩ false (fun _ => false)
          (fun _ => AttemptOutcome.raised ("429"))).1 ∧
      Adjacent (Action.log (Event.quota_backoff 1 (quotaWait ⟨1, 5, 30⟩ 1)))
        (Action.sleep (quotaWait ⟨1, 5, 30⟩ 1))
        (observe_run ⟨1, 5, 30⟩ false (fun _ => false)
          (fun _ => AttemptOutcome.raised ("429"))).1) ∧
    quotaWait ⟨1, 5, 30⟩ 1 = (30 : ℚ) * (3 / 2) ^ (1 - 1) ∧
    (0 < (30 : ℚ) →
      ∀ b c : Nat, 1 ≤ b → b < c →
        quotaWait ⟨1, 5, 30⟩ b < quotaWait ⟨1, 5, 30⟩ c) :=
  claim_C2 ⟨1, 5, 30⟩ false (fun _ => false)
    (fun _ => AttemptOutcome.raised ("429")) 1 ("429")
    (by
      have hq : isQuotaMsg ("429") = true := by decide
      simp [observe_run, withFinally, observe_loop, hq])
    (by decide)

/-- Witness for C3: a single-attempt run whose work stage raises
`"timeout"`. -/
theorem claim_C3_witness :
    Adjacent (Action.log (Event.error 1 ("timeout")))
      (Action.sleep (transientWait ⟨1, 5, 30⟩ 1))
      (observe_run ⟨1, 5, 30⟩ false (fun _ => false)
        (fun _ => AttemptOutcome.raised ("timeout"))).1 ∧
    (∀ w : ℚ, Action.log (Event.quota_backoff 1 w) ∉
        (observe_run ⟨1, 5, 30⟩ false (fun _ => false)
          (fun _ => AttemptOutcome.raised ("timeout"))).1) ∧
    transientWait ⟨1, 5, 30⟩ 1 = (5 : ℚ) * 2 ^ (1 - 1) ∧
    (∀ q q' : ℚ, transientWait ⟨1, 5, q⟩ 1 = transientWait ⟨1, 5, q'⟩ 1) :=
  claim_C3 ⟨1, 5, 30⟩ false (fun _ => false)
    (fun _ => AttemptOutcome.raised ("timeout")) 1 ("timeout")
    (by
      have hq : isQuotaMsg ("timeout") = false := by decide
      have ht : isTransientMsg ("timeout") = true := by decide
      simp [observe_run, withFinally, observe_loop, hq, ht])
    (by decide) (by decide)

/-- Witness for C5: cancelling the one known session of a concrete
registry. -/
theorem claim_C5_witness :
    (∃ st', alistLookup
        (cancelSession [(("sess"), (⟨false, true, false⟩ : SessionState))]
          ("sess")) ("sess") = some st' ∧
      st'.cancel = true ∧ st'.pause_event = true) ∧
    is_cancelled (cancelSession [(("sess"), (⟨false, true, false⟩ : SessionState))]
      ("sess")) ("sess") = true ∧
    (observe_run ⟨1, 5, 30⟩ false
        (fun _ => is_cancelled
          (cancelSession [(("sess"), (⟨false, true, false⟩ : SessionState))]
            ("sess")) ("sess"))
        (fun _ => AttemptOutcome.ok ("r"))).2 = RunResult.failure ("CANCELLED") ∧
    (observe_run ⟨1, 5, 30⟩ false
        (fun _ => is_cancelled
          (cancelSession [(("sess"), (⟨false, true, false⟩ : SessionState))]
            ("sess")) ("sess"))
        (fun _ => AttemptOutcome.ok ("r"))).1.countP isInvoke = 0 :=
  claim_C5 [(("sess"), (⟨false, true, false⟩ : SessionState))] ("sess")
    ⟨false, true, false⟩ (by decide) ⟨1, 5, 30⟩ false
    (fun _ => AttemptOutcome.ok ("r")) (by decide)

/-- Witness for C6: the wrapper applied to a concrete semaphore-free body
(modelling an exception escaping the loop after one invocation). -/
theorem claim_C6_witness :
    (withFinally true ([Action.invoke], RunResult.failure ("boom"), 1)).1.countP
      isAcquire = 1 ∧
    (withFinally true ([Action.invoke], RunResult.failure ("boom"), 1)).1.countP
      isRelease = 1 ∧
    (withFinally true ([Action.invoke], RunResult.failure ("boom"), 1)).1.head? =
      some Action.acquire ∧
    (withFinally true ([Action.invoke], RunResult.failure ("boom"), 1)).1.getLast? =
      some (Action.log (Event.finished_observe_run 1)) :=
  (claim_C6 defaultConfig (fun _ => false) (fun _ => AttemptOutcome.ok ("r"))).2
    [Action.invoke] (RunResult.failure ("boom")) 1 (by decide)

/-- Witness for C7 at the concrete result text `"429"`. -/
theorem claim_C7_witness :
    (eval_page ("429")).2 = ⟨5, [deferredIssue], pyTake ("429") 1000⟩ ∧
    deferredIssue ∈ (eval_page ("429")).2.issues ∧
    (∀ rs : List (String × String),
      (aggregate rs).map Prod.fst = rs.map Prod.fst) :=
  claim_C7 ("429") (by decide)

/-- Witness for C9: a 51-element list is truncated with the marker; a
2-element list is kept element-wise. -/
theorem claim_C9_witness :
    (50 < (List.replicate 51 PyVal.noneV).length ∧
      compact_context (PyVal.list (List.replicate 51 PyVal.noneV)) 3 =
        PyVal.list (compactList ((List.replicate 51 PyVal.noneV).take 50 ++
          [PyVal.str itemsMarker]) 3)) ∧
    ((List.replicate 2 PyVal.noneV).length ≤ 50 ∧
      compact_context (PyVal.list (List.replicate 2 PyVal.noneV)) 3 =
        PyVal.list ((List.replicate 2 PyVal.noneV).map fun x =>
          compact_context x 3)) :=
  ⟨⟨by simp, ((claim_C9 3 ("abc") (List.replicate 51 PyVal.noneV) [] 0 true).2.1
      (by simp)).1⟩,
   ⟨by simp, (claim_C9 3 ("abc") (List.replicate 2 PyVal.noneV) [] 0 true).2.2.1
      (by simp)⟩⟩

/-- Witness for C10: the stringified error results of a cancellation and of
retry exhaustion with a signature-free message. -/
theorem claim_C10_witness :
    eval_page (pyStr (RunResult.failure ("CANCELLED"))) =
      ([], ⟨9, [], pyTake (pyStr (RunResult.failure ("CANCELLED"))) 1000⟩) ∧
    eval_page (pyStr (RunResult.failure ("Max retries exceeded: boom"))) =
      ([], ⟨9, [],
        pyTake (pyStr (RunResult.failure ("Max retries exceeded: boom"))) 1000⟩) :=
  ⟨claim_C10 _ (by decide) (by decide), claim_C10 _ (by decide) (by decide)⟩

end JSF2NG
